import Mathlib

/-! Shallow embedding of the Energy Power Dashboard core (src/app.py):
unit tables, validation limits, undo/redo history, structural edit actions,
and the export builder. Cell values model pandas object cells; numeric cells
are rationals (the source uses float64 without exploiting rounding). -/

/-- A cell value in a table: numeric, text, or the no-value marker
(None/NaN in the source). -/
inductive Value where
  | vnum (q : ℚ)
  | vstr (s : String)
  | vnull
deriving DecidableEq

/-- Stringification used by astype(str) in the merge action: integers print
without a fractional part, a missing value prints as its marker text. -/
def pyStr : Value → String
  | .vnum q => if q.den = 1 then toString q.num else toString q
  | .vstr s => s
  | .vnull => "None"

/-- A min/max bounds pair, as stored in st.session_state.limits. -/
structure Bounds where
  min : ℚ
  max : ℚ
deriving DecidableEq

/-- The limits mapping with a power field and a soc field. -/
structure Limits where
  power : Bounds
  soc : Bounds
deriving DecidableEq

/-- DEFAULT_LIMITS from app.py. -/
def DEFAULT_LIMITS : Limits := ⟨⟨-200, 200⟩, ⟨0, 100⟩⟩

/-- A pandas DataFrame: ordered column names and rows of cells, one cell per
column position. -/
structure Table where
  cols : List String
  rows : List (List Value)
deriving DecidableEq

/-- Well-formed table: every row has exactly one cell per column. -/
def Table.Wf (t : Table) : Prop := ∀ r ∈ t.rows, r.length = t.cols.length

instance (t : Table) : Decidable t.Wf :=
  inferInstanceAs (Decidable (∀ r ∈ t.rows, r.length = t.cols.length))

/-- First index of a name in a list of column names (columns.get_loc). -/
def idxOf? (name : String) : List String → Option Nat
  | [] => none
  | c :: cs => if c = name then some 0 else (idxOf? name cs).map (· + 1)

/-- Index of a column by name, if present. -/
def Table.colIdx (t : Table) (name : String) : Option Nat :=
  idxOf? name t.cols

/-- The values of a named column, if the column is present. -/
def Table.getCol (t : Table) (name : String) : Option (List Value) :=
  (t.colIdx name).map fun i => t.rows.map fun r => r.getD i Value.vnull

/-- Pandas column assignment df[name] = vals: overwrite the column in place
when the name exists, otherwise append a new column on the right. -/
def Table.assignCol (t : Table) (name : String) (vals : List Value) : Table :=
  match t.colIdx name with
  | some i => { t with rows := (t.rows.zip vals).map fun p => p.1.set i p.2 }
  | none => { cols := t.cols ++ [name],
              rows := (t.rows.zip vals).map fun p => p.1 ++ [p.2] }

/-- Insert New Row: append a row with every current column set to None. -/
def Table.insertEmptyRow (t : Table) : Table :=
  { t with rows := t.rows ++ [List.replicate t.cols.length Value.vnull] }

/-- Delete Last Row: df.iloc[:-1]. -/
def Table.deleteLastRow (t : Table) : Table :=
  { t with rows := t.rows.dropLast }

/-- Insert New Column: df[name] = None. The source has no duplicate-name
check, so an existing column of that name is overwritten with None. -/
def Table.insertCol (t : Table) (name : String) : Table :=
  t.assignCol name (List.replicate t.rows.length Value.vnull)

/-- Delete Column: drop the named column from the schema and every row. -/
def Table.deleteCol (t : Table) (name : String) : Table :=
  match t.colIdx name with
  | some i => { cols := t.cols.eraseIdx i, rows := t.rows.map (·.eraseIdx i) }
  | none => t

/-- Rename Column: df.rename, replacing every matching column name. -/
def Table.renameCol (t : Table) (old newName : String) : Table :=
  { t with cols := t.cols.map fun c => if c = old then newName else c }

/-- Swap the entries at adjacent positions i and i+1 of a list. -/
def swapAdj {α : Type} (l : List α) (i : Nat) : List α :=
  match l.get? i, l.get? (i + 1) with
  | some a, some b => (l.set i b).set (i + 1) a
  | _, _ => l

/-- Move Column Left/Right core: swap the columns at positions i and i+1 in
the schema and reindex every row the same way (the ACTIVE_DF[cols] step). -/
def Table.swapCols (t : Table) (i : Nat) : Table :=
  { cols := swapAdj t.cols i, rows := t.rows.map (swapAdj · i) }

/-- Merge Columns: df[merged] = df[a].astype(str) + sep + df[b].astype(str).
The selectboxes only offer existing columns, so both sources are present in
every reachable call; an absent source leaves the table unchanged here. -/
def Table.mergeCols (t : Table) (a b newName sep : String) : Table :=
  match t.getCol a, t.getCol b with
  | some va, some vb =>
      t.assignCol newName
        ((va.zip vb).map fun p => Value.vstr (pyStr p.1 ++ sep ++ pyStr p.2))
  | _, _ => t

/-- The three monitored units (SWG_LIST). -/
inductive SWG where
  | swg1
  | swg2
  | swg3
deriving DecidableEq

/-- The ambient st.session_state: three unit tables, the limits, the lock
flag, and ONE history/redo stack pair shared by all units. -/
structure Session where
  SWG1_data : Table
  SWG2_data : Table
  SWG3_data : Table
  limits : Limits
  table_locked : Bool
  history : List Table
  redo_stack : List Table
deriving DecidableEq

/-- Read of the per-unit table key in session state. -/
def getTable : SWG → Session → Table
  | .swg1, s => s.SWG1_data
  | .swg2, s => s.SWG2_data
  | .swg3, s => s.SWG3_data

/-- Write of the per-unit table key in session state. -/
def setTable : SWG → Table → Session → Session
  | .swg1, t, s => { s with SWG1_data := t }
  | .swg2, t, s => { s with SWG2_data := t }
  | .swg3, t, s => { s with SWG3_data := t }

/-- The canonical empty table a unit starts with. -/
def initTable (swg : String) : Table :=
  { cols := [swg ++ "_DateTime", swg ++ "_Power(MW)", swg ++ "_SOC(%)"],
    rows := [] }

/-- init_session_state: empty canonical tables, default limits, unlocked,
empty history and redo stacks. -/
def init_session_state : Session :=
  { SWG1_data := initTable "SWG1"
    SWG2_data := initTable "SWG2"
    SWG3_data := initTable "SWG3"
    limits := DEFAULT_LIMITS
    table_locked := false
    history := []
    redo_stack := [] }

/-- User feedback surfaced by a handler (st.success / warning / info /
error), or nothing when the branch does not run. -/
inductive Feedback where
  | success (msg : String)
  | warning (msg : String)
  | info (msg : String)
  | error (msg : String)
  | silent
deriving DecidableEq

/-- Error message produced when power is outside the configured limits. -/
def powerRangeMsg (pmin pmax : ℚ) : String :=
  s!"Power must be between {pmin} and {pmax} MW."

/-- Error message produced when soc is outside the configured limits. -/
def socRangeMsg (smin smax : ℚ) : String :=
  s!"SOC must be between {smin}% and {smax}%."

/-- Error message produced when either input is null. -/
def missingMsg : String := "Power and SOC are required."

/-- validate_input(power, soc) from app.py: the None checks run first, then
the range checks against the limits read from the session at call time. -/
def validate_input (s : Session) (power soc : Option ℚ) : Bool × String :=
  match power, soc with
  | some p, some c =>
      let pmin := s.limits.power.min
      let pmax := s.limits.power.max
      let smin := s.limits.soc.min
      let smax := s.limits.soc.max
      if p < pmin ∨ p > pmax then (false, powerRangeMsg pmin pmax)
      else if c < smin ∨ c > smax then (false, socRangeMsg smin smax)
      else (true, "")
  | _, _ => (false, missingMsg)

/-- save_history_snapshot: push a copy of the table onto the undo stack and
clear the redo stack. -/
def save_history_snapshot (df : Table) (s : Session) : Session :=
  { s with history := df :: s.history, redo_stack := [] }

/-- The Undo button handler: push the current active table onto the redo
stack and pop the top undo snapshot into the active table. -/
def undo (active : SWG) (s : Session) : Session × Feedback :=
  match s.history with
  | [] => (s, .info "Nothing to undo")
  | t :: rest =>
      (setTable active t
        { s with redo_stack := getTable active s :: s.redo_stack
                 history := rest }, .silent)

/-- The Redo button handler, symmetric to Undo. -/
def redo (active : SWG) (s : Session) : Session × Feedback :=
  match s.redo_stack with
  | [] => (s, .info "Nothing to redo")
  | t :: rest =>
      (setTable active t
        { s with history := getTable active s :: s.history
                 redo_stack := rest }, .silent)

/-- The structural edit actions of the Edit Action dropdown. -/
inductive EditCmd where
  | insertRow
  | deleteLastRow
  | insertColumn (name : String)
  | deleteColumn (name : String)
  | renameColumn (old newName : String)
  | moveColumnLeft (name : String)
  | moveColumnRight (name : String)
  | mergeColumns (a b newName sep : String)
deriving DecidableEq

/-- One edit-action branch with the table unlocked: a branch that mutates
snapshots the active table first; boundary and empty cases only warn. -/
def applyEditUnlocked (u : SWG) (cmd : EditCmd) (s : Session) :
    Session × Feedback :=
  let t := getTable u s
  match cmd with
  | .insertRow =>
      (setTable u t.insertEmptyRow (save_history_snapshot t s),
       .success "Empty row inserted")
  | .deleteLastRow =>
      if t.rows = [] then (s, .warning "Table is empty")
      else (setTable u t.deleteLastRow (save_history_snapshot t s),
            .success "Last row deleted")
  | .insertColumn name =>
      if name = "" then (s, .silent)
      else (setTable u (t.insertCol name) (save_history_snapshot t s),
            .success "Column inserted")
  | .deleteColumn name =>
      if t.cols = [] then (s, .warning "No columns to delete")
      else (setTable u (t.deleteCol name) (save_history_snapshot t s),
            .success "Column deleted")
  | .renameColumn old newName =>
      if newName = "" then (s, .silent)
      else (setTable u (t.renameCol old newName) (save_history_snapshot t s),
            .success "Column renamed")
  | .moveColumnLeft name =>
      match t.colIdx name with
      | some 0 => (s, .warning "Column already at leftmost position")
      | some (i + 1) =>
          (setTable u (t.swapCols i) (save_history_snapshot t s),
           .success "Column moved left")
      | none => (s, .silent)
  | .moveColumnRight name =>
      match t.colIdx name with
      | some i =>
          if i = t.cols.length - 1 then
            (s, .warning "Column already at rightmost position")
          else (setTable u (t.swapCols i) (save_history_snapshot t s),
                .success "Column moved right")
      | none => (s, .silent)
  | .mergeColumns a b newName sep =>
      match t.getCol a, t.getCol b with
      | some _, some _ =>
          (setTable u (t.mergeCols a b newName sep)
            (save_history_snapshot t s), .success "Columns merged")
      | _, _ => (s, .silent)

/-- Edit-action dispatch: every branch is guarded by not TABLE_LOCKED, so a
locked session is returned untouched. -/
def applyEdit (u : SWG) (cmd : EditCmd) (s : Session) : Session × Feedback :=
  if s.table_locked then (s, .silent) else applyEditUnlocked u cmd s

/-- The Apply Power Limits button: reject min >= max with an error and no
mutation, otherwise set both power bounds. -/
def applyPowerLimits (pmin pmax : ℚ) (s : Session) : Session × Feedback :=
  if pmin ≥ pmax then
    (s, .error "Minimum Power must be less than Maximum Power.")
  else ({ s with limits := { s.limits with power := ⟨pmin, pmax⟩ } },
        .success "Power limits updated successfully.")

/-- The Apply SOC Limits button: reject min >= max with an error and no
mutation, otherwise set both soc bounds. -/
def applySocLimits (smin smax : ℚ) (s : Session) : Session × Feedback :=
  if smin ≥ smax then
    (s, .error "Minimum SOC must be less than Maximum SOC.")
  else ({ s with limits := { s.limits with soc := ⟨smin, smax⟩ } },
        .success "SOC limits updated successfully.")

/-- Apply the display-format conversion fmt to the DateTime column of one
unit when present (the timezone conversion and strftime of the source are
abstracted as the parameter fmt). -/
def formatDateTimeCol (fmt : Value → Value) (swg : String) (t : Table) :
    Table :=
  match t.colIdx (swg ++ "_DateTime") with
  | some i =>
      { t with rows := t.rows.map fun r =>
          r.mapIdx fun j v => if j = i then fmt v else v }
  | none => t

/-- pad_table: df.reindex(range(n)) — keep existing rows and add all-null
rows up to n. -/
def pad_table (t : Table) (n : Nat) : Table :=
  { t with rows := (List.range n).map fun i =>
      t.rows.getD i (List.replicate t.cols.length Value.vnull) }

/-- Row i of a table viewed with null padding: the real row when present,
an all-null row otherwise. -/
def padRow (t : Table) (i : Nat) : List Value :=
  t.rows.getD i (List.replicate t.cols.length Value.vnull)

/-- pd.concat(axis=1) of two equal-length tables: side-by-side columns. -/
def hconcat (a b : Table) : Table :=
  { cols := a.cols ++ b.cols, rows := List.zipWith (· ++ ·) a.rows b.rows }

/-- prepare_export_dataframe: format the DateTime column of each unit, pad
all three tables to the longest row count, and concatenate side-by-side in
unit order SWG1, SWG2, SWG3. -/
def prepare_export_dataframe (fmt : Value → Value) (s : Session) : Table :=
  let f1 := formatDateTimeCol fmt "SWG1" s.SWG1_data
  let f2 := formatDateTimeCol fmt "SWG2" s.SWG2_data
  let f3 := formatDateTimeCol fmt "SWG3" s.SWG3_data
  let maxLen := max (max f1.rows.length f2.rows.length) f3.rows.length
  hconcat (pad_table f1 maxLen)
    (hconcat (pad_table f2 maxLen) (pad_table f3 maxLen))

/-- Concrete sessions and tables used to evaluate the theorems below on
explicit inputs. -/
def sC5 : Session :=
  { init_session_state with
      SWG1_data := { cols := ["A"], rows := [[Value.vnum 7]] } }

def tC6a : Table := ⟨["A1"], [[Value.vnum 1], [Value.vnum 2]]⟩

def tC6b : Table := ⟨["B1"], []⟩

def tC6c : Table :=
  ⟨["C1"], [[Value.vnum 3], [Value.vnum 4], [Value.vnum 5],
    [Value.vnum 6], [Value.vnum 7]]⟩

def sC6 : Session :=
  { init_session_state with
      SWG1_data := tC6a, SWG2_data := tC6b, SWG3_data := tC6c }

def sC8 : Session :=
  { init_session_state with SWG1_data := Table.mk ["A", "B"] [] }

def sC10 : Session :=
  { init_session_state with
      table_locked := true
      history := [Table.mk ["H"] []]
      redo_stack := [Table.mk ["R"] []] }

/-- C1: for every pair of non-null inputs and every current limits state,
validate_input returns Ok exactly when power and soc lie in their closed
intervals, with the bounds read from the session at call time; a strictly
out-of-range input fails with the out-of-range message of the offending
field, and a null input fails with the missing-value message. -/
theorem C1_validate_input_spec (s : Session) (p q : ℚ) :
    (validate_input s (some p) (some q) = (true, "") ↔
      (s.limits.power.min ≤ p ∧ p ≤ s.limits.power.max ∧
       s.limits.soc.min ≤ q ∧ q ≤ s.limits.soc.max))
    ∧ ((p < s.limits.power.min ∨ p > s.limits.power.max) →
        validate_input s (some p) (some q) =
          (false, powerRangeMsg s.limits.power.min s.limits.power.max))
    ∧ ((s.limits.power.min ≤ p ∧ p ≤ s.limits.power.max ∧
        (q < s.limits.soc.min ∨ q > s.limits.soc.max)) →
        validate_input s (some p) (some q) =
          (false, socRangeMsg s.limits.soc.min s.limits.soc.max))
    ∧ validate_input s none (some q) = (false, missingMsg)
    ∧ validate_input s (some p) none = (false, missingMsg)
    ∧ validate_input s none none = (false, missingMsg) := by
  refine ⟨?_, ?_, ?_, rfl, rfl, rfl⟩
  · simp only [validate_input]
    split_ifs with h1 h2
    · constructor
      · intro hb; simp at hb
      · rintro ⟨hp1, hp2, -, -⟩
        rcases h1 with h | h
        · exact absurd hp1 (not_le.mpr h)
        · exact absurd hp2 (not_le.mpr h)
    · constructor
      · intro hb; simp at hb
      · rintro ⟨-, -, hs1, hs2⟩
        rcases h2 with h | h
        · exact absurd hs1 (not_le.mpr h)
        · exact absurd hs2 (not_le.mpr h)
    · push_neg at h1 h2
      constructor
      · intro _; exact ⟨h1.1, h1.2, h2.1, h2.2⟩
      · intro _; rfl
  · intro h1
    simp only [validate_input]
    rw [if_pos h1]
  · rintro ⟨hp1, hp2, h2⟩
    simp only [validate_input]
    rw [if_neg, if_pos h2]
    rintro (h | h)
    · exact absurd hp1 (not_le.mpr h)
    · exact absurd hp2 (not_le.mpr h)

theorem C1_witness :
    ((300:ℚ) < init_session_state.limits.power.min ∨
      (300:ℚ) > init_session_state.limits.power.max)
    ∧ validate_input init_session_state (some 300) (some 50) =
        (false, powerRangeMsg init_session_state.limits.power.min
          init_session_state.limits.power.max)
    ∧ validate_input init_session_state none none = (false, missingMsg) :=
  ⟨by decide,
   (C1_validate_input_spec init_session_state 300 50).2.1 (by decide),
   (C1_validate_input_spec init_session_state 300 50).2.2.2.2.2⟩

/-- C2: for every session whose undo stack is non-empty, and any redo
stack, performing undo and then redo restores the session exactly: the
active table, both stacks, and everything else — a pure symmetric stack
transfer with no merging. -/
theorem C2_undo_redo_roundtrip (u : SWG) (s : Session) (h : s.history ≠ []) :
    (redo u (undo u s).1).1 = s := by
  rcases hh : s.history with _ | ⟨t, rest⟩
  · exact absurd hh h
  · cases u <;> simp [undo, redo, getTable, setTable, hh] <;> rw [← hh]

theorem C2_witness :
    (redo SWG.swg1 (undo SWG.swg1
        { init_session_state with history := [initTable "SWG1"] }).1).1
      = { init_session_state with history := [initTable "SWG1"] } :=
  C2_undo_redo_roundtrip SWG.swg1 _ (by decide)

/-- C3: taking a snapshot for a new mutating edit empties the redo stack;
in particular, after the sequence snapshot, undo, edit, a redo attempt
reports Nothing to redo and leaves the session unchanged. -/
theorem C3_snapshot_clears_redo (s : Session) (df : Table) (u : SWG)
    (hlock : s.table_locked = false) :
    (save_history_snapshot df s).redo_stack = []
    ∧ redo u (applyEdit u .insertRow
          (undo u (save_history_snapshot (getTable u s) s)).1).1
        = ((applyEdit u .insertRow
            (undo u (save_history_snapshot (getTable u s) s)).1).1,
           .info "Nothing to redo") := by
  refine ⟨rfl, ?_⟩
  cases u <;>
    simp [save_history_snapshot, undo, applyEdit, applyEditUnlocked,
          redo, getTable, setTable, hlock]

/-- Witness: C3 evaluated on the initial session. -/
theorem C3_witness :
    (save_history_snapshot (initTable "SWG1") init_session_state).redo_stack = []
    ∧ redo SWG.swg1 (applyEdit SWG.swg1 .insertRow
          (undo SWG.swg1 (save_history_snapshot
            (getTable SWG.swg1 init_session_state) init_session_state)).1).1
        = ((applyEdit SWG.swg1 .insertRow
            (undo SWG.swg1 (save_history_snapshot
              (getTable SWG.swg1 init_session_state) init_session_state)).1).1,
           .info "Nothing to redo") :=
  C3_snapshot_clears_redo init_session_state (initTable "SWG1") SWG.swg1 rfl

/-- C4: updating limits with min >= max fails with an error and leaves the
stored limits for that field (and everything else) completely unchanged;
with min < max both bounds of that field are replaced while the other field
and the tables are untouched. -/
theorem C4_update_limits (s : Session) (a b : ℚ) :
    (a ≥ b → applyPowerLimits a b s =
        (s, .error "Minimum Power must be less than Maximum Power."))
    ∧ (a < b →
        (applyPowerLimits a b s).1.limits.power = ⟨a, b⟩
        ∧ (applyPowerLimits a b s).1.limits.soc = s.limits.soc
        ∧ (applyPowerLimits a b s).1.SWG1_data = s.SWG1_data
        ∧ (applyPowerLimits a b s).1.SWG2_data = s.SWG2_data
        ∧ (applyPowerLimits a b s).1.SWG3_data = s.SWG3_data)
    ∧ (a ≥ b → applySocLimits a b s =
        (s, .error "Minimum SOC must be less than Maximum SOC."))
    ∧ (a < b →
        (applySocLimits a b s).1.limits.soc = ⟨a, b⟩
        ∧ (applySocLimits a b s).1.limits.power = s.limits.power
        ∧ (applySocLimits a b s).1.SWG1_data = s.SWG1_data) := by
  refine ⟨fun h => ?_, fun h => ?_, fun h => ?_, fun h => ?_⟩
  · unfold applyPowerLimits; rw [if_pos h]
  · unfold applyPowerLimits; rw [if_neg (not_le.mpr h)]
    exact ⟨rfl, rfl, rfl, rfl, rfl⟩
  · unfold applySocLimits; rw [if_pos h]
  · unfold applySocLimits; rw [if_neg (not_le.mpr h)]
    exact ⟨rfl, rfl, rfl⟩

theorem C4_witness :
    applyPowerLimits 5 5 init_session_state =
      (init_session_state,
       .error "Minimum Power must be less than Maximum Power.")
    ∧ (applySocLimits 10 90 init_session_state).1.limits.soc = ⟨10, 90⟩ :=
  ⟨(C4_update_limits init_session_state 5 5).1 (by decide),
   ((C4_update_limits init_session_state 10 90).2.2.2 (by decide)).1⟩

/-- helper lemmas on idxOf? -/
theorem idxOf?_lt {name : String} : ∀ {l : List String} {i : Nat},
    idxOf? name l = some i → i < l.length := by
  intro l
  induction l with
  | nil => intro i h; simp [idxOf?] at h
  | cons c cs ih =>
      intro i h
      simp only [idxOf?] at h
      split_ifs at h with hc
      · cases h; simp
      · rcases Option.map_eq_some'.mp h with ⟨j, hj, rfl⟩
        exact Nat.succ_lt_succ (ih hj)

theorem idxOf?_none {name : String} : ∀ {l : List String},
    idxOf? name l = none ↔ name ∉ l := by
  intro l
  induction l with
  | nil => simp [idxOf?]
  | cons c cs ih =>
      simp only [idxOf?, List.mem_cons]
      split_ifs with hc
      · simp [hc]
      · simp only [Option.map_eq_none', ih]
        constructor
        · intro h hmem
          rcases hmem with h1 | h1
          · exact hc h1.symm
          · exact h h1
        · intro h hmem; exact h (Or.inr hmem)

theorem idxOf?_append_self {name : String} : ∀ {l : List String},
    name ∉ l → idxOf? name (l ++ [name]) = some l.length := by
  intro l
  induction l with
  | nil => intro _; simp [idxOf?]
  | cons c cs ih =>
      intro h
      have hc : ¬ c = name := fun hcn => h (by simp [hcn])
      have h2 : idxOf? name (cs ++ [name]) = some cs.length :=
        ih (fun hm => h (by simp [hm]))
      simp [idxOf?, hc, h2]

/-- pointwise: overwriting cell i of every row then reading back cell i -/
theorem setGet_zip : ∀ (rows : List (List Value)) (vals : List Value)
    (i : Nat), (∀ r ∈ rows, i < r.length) → vals.length = rows.length →
    ((rows.zip vals).map fun p => p.1.set i p.2).map
      (fun r => r.getD i Value.vnull) = vals := by
  intro rows
  induction rows with
  | nil =>
      intro vals i _ hlen
      cases vals with
      | nil => rfl
      | cons v vs => simp at hlen
  | cons r rs ih =>
      intro vals i hall hlen
      cases vals with
      | nil => simp at hlen
      | cons v vs =>
          simp only [List.zip_cons_cons, List.map_cons, List.cons.injEq]
          constructor
          · have hir : i < r.length := hall r (by simp)
            simp [List.getD, List.get?_set_eq, hir]
          · exact ih vs i (fun x hx => hall x (by simp [hx]))
              (by simpa using hlen)

/-- pointwise: appending a cell to every row then reading it back -/
theorem appendGet_zip : ∀ (rows : List (List Value)) (vals : List Value)
    (n : Nat), (∀ r ∈ rows, r.length = n) → vals.length = rows.length →
    ((rows.zip vals).map fun p => p.1 ++ [p.2]).map
      (fun r => r.getD n Value.vnull) = vals := by
  intro rows
  induction rows with
  | nil =>
      intro vals n _ hlen
      cases vals with
      | nil => rfl
      | cons v vs => simp at hlen
  | cons r rs ih =>
      intro vals n hall hlen
      cases vals with
      | nil => simp at hlen
      | cons v vs =>
          simp only [List.zip_cons_cons, List.map_cons, List.cons.injEq]
          constructor
          · have hr : r.length = n := hall r (by simp)
            simp [List.getD, List.get?_append_right, hr]
          · exact ih vs n (fun x hx => hall x (by simp [hx]))
              (by simpa using hlen)

/-- column readback after pandas column assignment -/
theorem getCol_assignCol_self (t : Table) (name : String) (vals : List Value)
    (hwf : t.Wf) (hlen : vals.length = t.rows.length) :
    (t.assignCol name vals).getCol name = some vals := by
  unfold Table.assignCol
  cases hidx : t.colIdx name with
  | some i =>
      have hi : i < t.cols.length := idxOf?_lt hidx
      simp only [Table.getCol, Table.colIdx]
      rw [show idxOf? name t.cols = some i from hidx]
      simp only [Option.map_some', Option.some.injEq]
      exact setGet_zip t.rows vals i (fun r hr => (hwf r hr) ▸ hi) hlen
  | none =>
      simp only [Table.getCol, Table.colIdx]
      rw [idxOf?_append_self (idxOf?_none.mp hidx)]
      simp only [Option.map_some', Option.some.injEq]
      exact appendGet_zip t.rows vals t.cols.length hwf hlen

/-- C5 counterexample: inserting a column named A into a table that already
has a column A does not fail with a duplicate-column error — the action
succeeds, takes a snapshot, and overwrites column A with nulls, changing
the table. This refutes the claim that insertColumn fails with
DuplicateColumn and leaves the table unchanged. -/
theorem C5_counterexample :
    (applyEdit SWG.swg1 (.insertColumn "A") sC5).2 = .success "Column inserted"
    ∧ getTable SWG.swg1 (applyEdit SWG.swg1 (.insertColumn "A") sC5).1
        = { cols := ["A"], rows := [[Value.vnull]] }
    ∧ getTable SWG.swg1 (applyEdit SWG.swg1 (.insertColumn "A") sC5).1
        ≠ getTable SWG.swg1 sC5 := by
  decide

/-- C5 amended: insertColumn with an already-present name does not fail; it
overwrites that column in place with the null marker and keeps the schema
unchanged, while a fresh name is appended on the right; in both cases
column names remain unique. -/
theorem C5_amended (t : Table) (name : String) (hwf : t.Wf) :
    (name ∈ t.cols →
      (t.insertCol name).cols = t.cols
      ∧ (t.insertCol name).getCol name =
          some (List.replicate t.rows.length Value.vnull))
    ∧ (name ∉ t.cols → (t.insertCol name).cols = t.cols ++ [name])
    ∧ (t.cols.Nodup → (t.insertCol name).cols.Nodup) := by
  have hget : (t.insertCol name).getCol name =
      some (List.replicate t.rows.length Value.vnull) :=
    getCol_assignCol_self t name _ hwf (by simp)
  have hcols_mem : name ∈ t.cols → (t.insertCol name).cols = t.cols := by
    intro hm
    unfold Table.insertCol Table.assignCol
    cases hidx : t.colIdx name with
    | some i => rfl
    | none => exact absurd hm (idxOf?_none.mp hidx)
  have hcols_nomem : name ∉ t.cols →
      (t.insertCol name).cols = t.cols ++ [name] := by
    intro hm
    unfold Table.insertCol Table.assignCol
    cases hidx : t.colIdx name with
    | some i =>
        have hn : t.colIdx name = none := idxOf?_none.mpr hm
        rw [hidx] at hn; cases hn
    | none => rfl
  refine ⟨fun hm => ⟨hcols_mem hm, hget⟩, hcols_nomem, fun hnd => ?_⟩
  by_cases hm : name ∈ t.cols
  · rw [hcols_mem hm]; exact hnd
  · rw [hcols_nomem hm]; simp [List.nodup_append, hnd, hm]

theorem C5_amended_witness :
    ((Table.mk ["A"] [[Value.vnum 7]]).insertCol "A").cols = ["A"]
    ∧ ((Table.mk ["A"] [[Value.vnum 7]]).insertCol "A").getCol "A" =
        some (List.replicate 1 Value.vnull) :=
  (C5_amended ⟨["A"], [[Value.vnum 7]]⟩ "A" (by decide)).1 (by decide)

/-- zipWith of two maps over one list is a single map -/
theorem zipWith_map_same {α β γ δ : Type} (f : β → γ → δ) (g : α → β)
    (k : α → γ) : ∀ (l : List α),
    List.zipWith f (l.map g) (l.map k) = l.map fun x => f (g x) (k x) := by
  intro l
  induction l with
  | nil => rfl
  | cons a as ih => simp [ih]

/-- formatting the DateTime column keeps the schema -/
theorem formatDateTimeCol_cols (fmt : Value → Value) (swg : String)
    (t : Table) : (formatDateTimeCol fmt swg t).cols = t.cols := by
  unfold formatDateTimeCol
  cases hidx : t.colIdx (swg ++ "_DateTime") <;> rfl

/-- formatting the DateTime column keeps the row count -/
theorem formatDateTimeCol_rows_length (fmt : Value → Value) (swg : String)
    (t : Table) :
    (formatDateTimeCol fmt swg t).rows.length = t.rows.length := by
  unfold formatDateTimeCol
  cases hidx : t.colIdx (swg ++ "_DateTime") <;> simp

/-- the export rows as one indexed map -/
theorem prepare_export_rows (fmt : Value → Value) (s : Session) :
    (prepare_export_dataframe fmt s).rows =
      (List.range (max (max
          (formatDateTimeCol fmt "SWG1" s.SWG1_data).rows.length
          (formatDateTimeCol fmt "SWG2" s.SWG2_data).rows.length)
          (formatDateTimeCol fmt "SWG3" s.SWG3_data).rows.length)).map
        fun i =>
          padRow (formatDateTimeCol fmt "SWG1" s.SWG1_data) i ++
            (padRow (formatDateTimeCol fmt "SWG2" s.SWG2_data) i ++
             padRow (formatDateTimeCol fmt "SWG3" s.SWG3_data) i) := by
  unfold prepare_export_dataframe hconcat pad_table padRow
  simp only [zipWith_map_same]

/-- C6: the export builder pads each unit table to the row count of the
longest table, with every cell of the added rows set to the no-value
marker, and concatenates the padded tables column-wise in unit order
SWG1, SWG2, SWG3. -/
theorem C6_export_padding (fmt : Value → Value) (s : Session) :
    (prepare_export_dataframe fmt s).cols =
      s.SWG1_data.cols ++ (s.SWG2_data.cols ++ s.SWG3_data.cols)
    ∧ (prepare_export_dataframe fmt s).rows.length =
      max (max s.SWG1_data.rows.length s.SWG2_data.rows.length)
        s.SWG3_data.rows.length
    ∧ ∀ i, i < (prepare_export_dataframe fmt s).rows.length →
        (prepare_export_dataframe fmt s).rows.get? i =
          some (padRow (formatDateTimeCol fmt "SWG1" s.SWG1_data) i ++
            (padRow (formatDateTimeCol fmt "SWG2" s.SWG2_data) i ++
             padRow (formatDateTimeCol fmt "SWG3" s.SWG3_data) i)) := by
  have hlen : (prepare_export_dataframe fmt s).rows.length =
      max (max s.SWG1_data.rows.length s.SWG2_data.rows.length)
        s.SWG3_data.rows.length := by
    rw [prepare_export_rows]
    simp [formatDateTimeCol_rows_length]
  refine ⟨?_, hlen, ?_⟩
  · show (formatDateTimeCol fmt "SWG1" s.SWG1_data).cols ++
      ((formatDateTimeCol fmt "SWG2" s.SWG2_data).cols ++
       (formatDateTimeCol fmt "SWG3" s.SWG3_data).cols) = _
    simp [formatDateTimeCol_cols]
  · intro i hi
    rw [prepare_export_rows] at hi ⊢
    rw [List.get?_map, List.get?_range (by simpa using hi)]
    rfl

/-- C7 prerequisite: a read-back column has one value per row -/
theorem getCol_length {t : Table} {name : String} {v : List Value}
    (h : t.getCol name = some v) : v.length = t.rows.length := by
  unfold Table.getCol at h
  rcases Option.map_eq_some'.mp h with ⟨i, _, rfl⟩
  simp

/-- assignment to an existing column keeps the schema -/
theorem assignCol_cols_mem {t : Table} {name : String} (vals : List Value)
    (hm : name ∈ t.cols) : (t.assignCol name vals).cols = t.cols := by
  unfold Table.assignCol
  cases hidx : t.colIdx name with
  | some i => rfl
  | none => exact absurd hm (idxOf?_none.mp hidx)

/-- C7: mergeColumns sets the target column, in every row, to the
stringified value of the first source column, the separator, and the
stringified value of the second source column; when the target name already
exists, that column is overwritten in place. -/
theorem C7_merge_columns (t : Table) (a b nn sep : String) (hwf : t.Wf)
    (va vb : List Value) (ha : t.getCol a = some va)
    (hb : t.getCol b = some vb) :
    (t.mergeCols a b nn sep).getCol nn =
      some ((va.zip vb).map fun p => Value.vstr (pyStr p.1 ++ sep ++ pyStr p.2))
    ∧ (nn ∈ t.cols → (t.mergeCols a b nn sep).cols = t.cols) := by
  unfold Table.mergeCols
  rw [ha, hb]
  have hlen : ((va.zip vb).map fun p =>
      Value.vstr (pyStr p.1 ++ sep ++ pyStr p.2)).length = t.rows.length := by
    simp [getCol_length ha, getCol_length hb]
  exact ⟨getCol_assignCol_self t nn _ hwf hlen,
    fun hm => assignCol_cols_mem _ hm⟩

theorem C7_witness :
    (Table.mergeCols ⟨["A", "B"], [[Value.vnum 1, Value.vnum 2]]⟩
        "A" "B" "C" " | ").getCol "C" = some [Value.vstr "1 | 2"] := by
  have h := (C7_merge_columns ⟨["A", "B"], [[Value.vnum 1, Value.vnum 2]]⟩
      "A" "B" "C" " | " (by decide) [Value.vnum 1] [Value.vnum 2]
      (by decide) (by decide)).1
  exact h.trans (by decide)

/-- reading the active table back after writing it -/
theorem getTable_setTable (u : SWG) (t : Table) (s : Session) :
    getTable u (setTable u t s) = t := by cases u <;> rfl

/-- C8: moving the leftmost column left, or the rightmost column right, is
a no-op that warns and leaves the session unchanged — never an error; in
non-boundary positions the column is swapped with its neighbour in the
requested direction. -/
theorem C8_move_column_boundary (s : Session) (u : SWG) (name : String)
    (hlock : s.table_locked = false) :
    ((getTable u s).colIdx name = some 0 →
      applyEdit u (.moveColumnLeft name) s =
        (s, .warning "Column already at leftmost position"))
    ∧ (∀ i, (getTable u s).colIdx name = some i →
        i = (getTable u s).cols.length - 1 →
        applyEdit u (.moveColumnRight name) s =
          (s, .warning "Column already at rightmost position"))
    ∧ (∀ i, (getTable u s).colIdx name = some (i + 1) →
        getTable u (applyEdit u (.moveColumnLeft name) s).1 =
          (getTable u s).swapCols i)
    ∧ (∀ i, (getTable u s).colIdx name = some i →
        i + 1 < (getTable u s).cols.length →
        getTable u (applyEdit u (.moveColumnRight name) s).1 =
          (getTable u s).swapCols i)
    ∧ (∀ (t : Table) (i : Nat), i + 1 < t.cols.length →
        (t.swapCols i).cols.get? i = t.cols.get? (i + 1)
        ∧ (t.swapCols i).cols.get? (i + 1) = t.cols.get? i
        ∧ ∀ j, j ≠ i → j ≠ i + 1 →
            (t.swapCols i).cols.get? j = t.cols.get? j) := by
  refine ⟨fun h0 => ?_, fun i hi hib => ?_, fun i hi => ?_,
    fun i hi hib => ?_, fun t i hib => ?_⟩
  · simp [applyEdit, hlock, applyEditUnlocked, h0]
  · simp [applyEdit, hlock, applyEditUnlocked, hi, hib]
  · simp [applyEdit, hlock, applyEditUnlocked, hi, getTable_setTable]
  · have hne : i ≠ (getTable u s).cols.length - 1 := by omega
    simp [applyEdit, hlock, applyEditUnlocked, hi, hne, getTable_setTable]
  · have hi : i < t.cols.length := by omega
    rcases List.get?_eq_get hi with ha
    rcases List.get?_eq_get hib with hbv
    unfold Table.swapCols swapAdj
    rw [ha, hbv]
    refine ⟨?_, ?_, fun j hj1 hj2 => ?_⟩
    · rw [List.get?_set_ne _ _ (by omega), List.get?_set_eq_of_lt _ hi]
    · rw [List.get?_set_eq_of_lt _ (by simpa using hib)]
    · rw [List.get?_set_ne _ _ (by omega), List.get?_set_ne _ _ (by omega)]

theorem C6_witness :
    (prepare_export_dataframe id sC6).rows.length = 5
    ∧ (prepare_export_dataframe id sC6).rows.get? 3 =
        some [Value.vnull, Value.vnull, Value.vnum 6] := by
  have h := C6_export_padding id sC6
  refine ⟨h.2.1.trans (by decide), ?_⟩
  have h3 := h.2.2 3 (by rw [h.2.1]; decide)
  exact h3.trans (by decide)

theorem C8_witness :
    applyEdit SWG.swg1 (.moveColumnLeft "A") sC8 =
      (sC8, .warning "Column already at leftmost position")
    ∧ applyEdit SWG.swg1 (.moveColumnRight "B") sC8 =
      (sC8, .warning "Column already at rightmost position") :=
  ⟨(C8_move_column_boundary sC8 SWG.swg1 "A" rfl).1 (by decide),
   (C8_move_column_boundary sC8 SWG.swg1 "B" rfl).2.1 1 (by decide) (by decide)⟩

/-- C9: there is exactly one undo stack shared by all three unit tables:
undo pops the globally most recent snapshot — here one captured from unit
u — and assigns it to whichever unit v is currently active, so undoing
after switching the active unit replaces the table of one unit with a
snapshot of another. -/
theorem C9_shared_history (s : Session) (u v : SWG)
    (hlock : s.table_locked = false) :
    getTable v (undo v (applyEdit u .insertRow s).1).1 = getTable u s
    ∧ ((undo v (applyEdit u .insertRow s).1).1).history = s.history
    ∧ (u ≠ v → getTable u (undo v (applyEdit u .insertRow s).1).1 =
        (getTable u s).insertEmptyRow) := by
  cases u <;> cases v <;>
    simp [applyEdit, hlock, applyEditUnlocked, save_history_snapshot,
      undo, getTable, setTable]

theorem C9_witness :
    getTable SWG.swg2 (undo SWG.swg2
        (applyEdit SWG.swg1 .insertRow init_session_state).1).1
      = getTable SWG.swg1 init_session_state
    ∧ getTable SWG.swg2 init_session_state ≠
        getTable SWG.swg1 init_session_state :=
  ⟨(C9_shared_history init_session_state SWG.swg1 SWG.swg2 rfl).1, by decide⟩

/-- C10: while the table lock flag is set, every structural edit action
leaves the whole session unchanged, but Undo and Redo are not gated by the
lock and still transfer snapshots into the active table. -/
theorem C10_lock_gates_edits_not_history (s : Session) (u : SWG)
    (cmd : EditCmd) (hlock : s.table_locked = true) :
    applyEdit u cmd s = (s, .silent)
    ∧ (∀ t rest, s.history = t :: rest →
        getTable u (undo u s).1 = t ∧ ((undo u s).1).table_locked = true)
    ∧ (∀ t rest, s.redo_stack = t :: rest →
        getTable u (redo u s).1 = t ∧ ((redo u s).1).table_locked = true) := by
  refine ⟨?_, fun t rest h => ?_, fun t rest h => ?_⟩
  · unfold applyEdit; rw [hlock]; rfl
  · cases u <;> simp [undo, h, getTable, setTable, hlock]
  · cases u <;> simp [redo, h, getTable, setTable, hlock]

theorem C10_witness :
    applyEdit SWG.swg1 .insertRow sC10 = (sC10, .silent)
    ∧ getTable SWG.swg1 (undo SWG.swg1 sC10).1 = Table.mk ["H"] []
    ∧ getTable SWG.swg1 (redo SWG.swg1 sC10).1 = Table.mk ["R"] [] :=
  ⟨(C10_lock_gates_edits_not_history sC10 SWG.swg1 .insertRow rfl).1,
   ((C10_lock_gates_edits_not_history sC10 SWG.swg1 .insertRow rfl).2.1
      _ _ rfl).1,
   ((C10_lock_gates_edits_not_history sC10 SWG.swg1 .insertRow rfl).2.2
      _ _ rfl).1⟩
